import Mathlib

/-!
Shallow embedding of the omnibox input-classification and command-dispatch
core (`textual_markdown_viewer/widgets/omnibox.py`).

The embedding models:
  * Python string primitives used by the code (`str.strip`, `str.lower`,
    `str.split(None, 1)`) over `List Char`;
  * `pathlib.Path` construction and `str(path)` (POSIX rules: empty string
    becomes ".", "." components and empty components are dropped, a root of
    exactly two leading slashes is kept distinct);
  * the filesystem probe (`exists` / `is_file` / `is_dir`) and the external
    URL-likelihood predicate as abstract boolean-valued capabilities;
  * the messages posted by the widget as a sum type, and the submit handler
    `on_input_submitted` as a function from the widget's current value to an
    optional outcome (list of posted messages, final input value, whether the
    event was stopped); `none` models an uncaught Python exception
    (`ValueError` from tuple unpacking or `AttributeError` from `getattr`).
-/

/-- Python whitespace test for `str.strip` / `str.split(None)`: space, tab,
newline, carriage return, vertical tab, form feed. -/
def pyIsSpace (c : Char) : Bool :=
  c.toNat == 32 || c.toNat == 9 || c.toNat == 10 || c.toNat == 13 ||
    c.toNat == 11 || c.toNat == 12

/-- ASCII lowercasing of one character, modelling Python `str.lower` on the
ASCII fragment the command tokens live in. -/
def pyLowerChar (c : Char) : Char :=
  if 65 ≤ c.toNat ∧ c.toNat ≤ 90 then Char.ofNat (c.toNat + 32) else c

/-- Drop leading Python whitespace. -/
def dropWS (l : List Char) : List Char := l.dropWhile pyIsSpace

/-- Drop trailing Python whitespace. -/
def stripR (l : List Char) : List Char := (l.reverse.dropWhile pyIsSpace).reverse

/-- Python `str.strip()` on a character list. -/
def pystripL (l : List Char) : List Char := stripR (dropWS l)

/-- Python `str.strip()`. -/
def pystrip (s : String) : String := String.mk (pystripL s.data)

/-- Python `str.lower()` (ASCII model). -/
def pylower (s : String) : String := String.mk (s.data.map pyLowerChar)

/-- Python `s.split(None, 1)` on a character list: skip leading whitespace;
if nothing remains, the result is empty; otherwise take the maximal run of
non-whitespace as the first token, skip the following whitespace, and if
anything remains it is the remainder, kept verbatim to the end. -/
def pysplit1L (l : List Char) : List (List Char) :=
  match dropWS l with
  | [] => []
  | c :: cs =>
      let tok := (c :: cs).takeWhile (fun d => !pyIsSpace d)
      let rest := dropWS ((c :: cs).dropWhile (fun d => !pyIsSpace d))
      if rest = [] then [tok] else [tok, rest]

/-- Python `s.split(None, 1)`. -/
def pysplit1 (s : String) : List String := (pysplit1L s.data).map String.mk

/-- `pathlib.PurePosixPath` value: a root ("", "/" or "//") and the list of
path components (empty and "." components already dropped). -/
structure PyPath where
  root : String
  parts : List String
deriving DecidableEq, Repr

/-- Split a character list on the `/` separator (the splitting that
`pathlib`'s parser performs on the raw path string). -/
def splitOnSlashL : List Char → List (List Char)
  | [] => [[]]
  | c :: cs =>
      if c = '/' then [] :: splitOnSlashL cs
      else
        match splitOnSlashL cs with
        | [] => [[c]]
        | h :: t => (c :: h) :: t

/-- `pathlib.Path(s)` (POSIX parsing rules): one leading slash or three or
more give root "/", exactly two give the special root "//", none gives no
root; empty and "." components are dropped. -/
def pathOfString (s : String) : PyPath :=
  let root :=
    match s.data with
    | '/' :: '/' :: '/' :: _ => "/"
    | '/' :: '/' :: _ => "//"
    | '/' :: _ => "/"
    | _ => ""
  ⟨root,
    ((splitOnSlashL s.data).filter (fun p => !(p == [] || p == ['.']))).map
      String.mk⟩

/-- Join path components with `/` separators. -/
def joinParts : List String → String
  | [] => ""
  | [p] => p
  | p :: rest => p ++ "/" ++ joinParts rest

/-- `str(path)` for a `pathlib` path: "." when there is no root and no
component, otherwise the root followed by the "/"-joined components. -/
def PyPath.toStr (p : PyPath) : String :=
  if p.root = "" ∧ p.parts = [] then "."
  else p.root ++ joinParts p.parts

/-- The filesystem probe capability: `Path.exists`, `Path.is_file`,
`Path.is_dir` as abstract boolean functions on parsed paths. -/
structure FSProbe where
  pathExists : PyPath → Bool
  isFile : PyPath → Bool
  isDir : PyPath → Bool

/-- `httpx.URL` is external to this repository; the embedding keeps the raw
string it was constructed from. -/
structure URL where
  raw : String
deriving DecidableEq, Repr

/-- The messages the omnibox can post, one constructor per `Message`
subclass of the source. -/
inductive Msg where
  | RemoteViewCommand (url : URL)
  | LocalViewCommand (path : PyPath)
  | LocalChdirCommand (target : PyPath)
  | ContentsCommand
  | LocalFilesCommand
  | QuitCommand
  | HistoryCommand
  | AboutCommand
deriving DecidableEq, Repr

/-- `Omnibox._ALIASES`. -/
def ALIASES : List (String × String) :=
  [("a", "about"), ("c", "contents"), ("cd", "chdir"), ("h", "history"),
   ("l", "local"), ("toc", "contents"), ("q", "quit")]

/-- `self._ALIASES.get(command, command)`. -/
def aliasGet (command : String) : String := (ALIASES.lookup command).getD command

/-- `Omnibox.command_contents`. -/
def command_contents (_ : String) : List Msg := [Msg.ContentsCommand]

/-- `Omnibox.command_local`. -/
def command_local (_ : String) : List Msg := [Msg.LocalFilesCommand]

/-- `Omnibox.command_quit`. -/
def command_quit (_ : String) : List Msg := [Msg.QuitCommand]

/-- `Omnibox.command_history`. -/
def command_history (_ : String) : List Msg := [Msg.HistoryCommand]

/-- `Omnibox.command_about`. -/
def command_about (_ : String) : List Msg := [Msg.AboutCommand]

/-- `Omnibox.command_chdir`. -/
def command_chdir (target : String) : List Msg :=
  [Msg.LocalChdirCommand (pathOfString target)]

/-- `getattr(self, "command_" + name, None)`: the handler registry implied by
the `command_*` methods of the class. -/
def getCommandHandler (name : String) : Option (String → List Msg) :=
  if name = "contents" then some command_contents
  else if name = "local" then some command_local
  else if name = "quit" then some command_quit
  else if name = "history" then some command_history
  else if name = "about" then some command_about
  else if name = "chdir" then some command_chdir
  else none

/-- `Omnibox._split_command`. -/
def split_command (value : String) : List String :=
  let command := pysplit1 value
  if command.length = 1 then command ++ [""] else command

/-- `Omnibox._is_command`; `none` models the `ValueError` Python raises when
`command, *_ = []` fails to unpack. -/
def is_command (value : String) : Option Bool :=
  match split_command value with
  | [] => none
  | command :: _ => some (getCommandHandler (aliasGet command)).isSome

/-- `Omnibox._execute_command`; `none` models an unpacking `ValueError` or a
missing-handler `AttributeError`. -/
def execute_command (command : String) : Option (List Msg) :=
  match split_command command with
  | [command, arguments] =>
      match getCommandHandler (aliasGet command) with
      | some h => some (h (pystrip arguments))
      | none => none
  | _ => none

/-- The observable outcome of one run of the submit handler: the messages
posted (in order), the final `self.value`, and whether `event.stop()` was
called. -/
structure SubmitOutcome where
  messages : List Msg
  finalValue : String
  eventStopped : Bool
deriving DecidableEq, Repr

/-- `Omnibox.on_input_submitted`, as a function of the URL-likelihood
predicate, the filesystem probe, and the widget's current `self.value`;
`none` models an uncaught exception. -/
def on_input_submitted (urlLikely : String → Bool) (fs : FSProbe)
    (value : String) : Option SubmitOutcome :=
  let submitted := pystrip value
  if urlLikely submitted then
    some ⟨[Msg.RemoteViewCommand ⟨submitted⟩], "", true⟩
  else
    let path := pathOfString submitted
    if fs.pathExists path then
      if fs.isFile path then
        some ⟨[Msg.LocalViewCommand path], path.toStr, true⟩
      else if fs.isDir path then
        some ⟨[Msg.LocalChdirCommand path], "", true⟩
      else
        some ⟨[], "", false⟩
    else
      match is_command (pylower submitted) with
      | none => none
      | some true =>
          match execute_command (pylower submitted) with
          | none => none
          | some msgs => some ⟨msgs, "", true⟩
      | some false =>
          some ⟨[Msg.LocalViewCommand (pathOfString submitted)], submitted, true⟩

/-- The remainder list produced when the submit pipeline (strip, lower,
split) runs on `token ++ " " ++ x`: the tail of `x` after right-stripping
(from the outer `strip`), lowercasing (the code lowercases the whole
submitted string), and left-trimming (from `split`). -/
def restOf (x : List Char) : List Char :=
  dropWS (List.map pyLowerChar (stripR x))

/-- The argument string the handler receives when the submit pipeline runs
on `token ++ " " ++ x`: `restOf x` stripped again (by
`_execute_command`'s `arguments.strip()`). -/
def argTail (x : String) : String := String.mk (pystripL (restOf x.data))

example : pathOfString "./README.md" = ⟨"", ["README.md"]⟩ := by decide
example : (pathOfString "./README.md").toStr = "README.md" := by decide
example : pathOfString "" = ⟨"", []⟩ := by decide
example : (pathOfString "").toStr = "." := by decide
example : pathOfString "." = pathOfString "" := by decide
example : pysplit1 "cd /tmp" = ["cd", "/tmp"] := by decide
example : pysplit1 "" = [] := by decide
example : pysplit1 "a   b  c " = ["a", "b  c "] := by decide
example : split_command "q" = ["q", ""] := by decide
example : pystrip "  hi  " = "hi" := by decide
example : pylower "CD /Tmp" = "cd /tmp" := by decide
example : is_command "q" = some true := by decide
example : is_command "nope" = some false := by decide
example : execute_command "cd /tmp" = some [Msg.LocalChdirCommand ⟨"/", ["tmp"]⟩] := by decide
example :
    on_input_submitted (fun _ => false) ⟨fun _ => false, fun _ => false, fun _ => false⟩
      "CD /Tmp" =
    some ⟨[Msg.LocalChdirCommand ⟨"/", ["tmp"]⟩], "", true⟩ := by decide

/-! ### Helper lemmas about the Python string primitives -/

theorem dropWhile_append_all {α : Type} (p : α → Bool) (l r : List α)
    (h : ∀ c ∈ l, p c = true) :
    List.dropWhile p (l ++ r) = List.dropWhile p r := by
  induction l with
  | nil => rfl
  | cons a t ih =>
      have ha : p a = true := h a (List.mem_cons_self a t)
      simp only [List.cons_append, List.dropWhile_cons, ha, if_true]
      exact ih (fun c hc => h c (List.mem_cons_of_mem a hc))

theorem takeWhile_append_all {α : Type} (p : α → Bool) (l r : List α)
    (h : ∀ c ∈ l, p c = true) :
    List.takeWhile p (l ++ r) = l ++ List.takeWhile p r := by
  induction l with
  | nil => rfl
  | cons a t ih =>
      have ha : p a = true := h a (List.mem_cons_self a t)
      simp only [List.cons_append, List.takeWhile_cons, ha, if_true]
      rw [ih (fun c hc => h c (List.mem_cons_of_mem a hc))]

theorem dropWhile_append_of_ne {α : Type} (p : α → Bool) (l r : List α)
    (h : List.dropWhile p l ≠ []) :
    List.dropWhile p (l ++ r) = List.dropWhile p l ++ r := by
  induction l with
  | nil => exact absurd rfl h
  | cons a t ih =>
      by_cases ha : p a = true
      · simp only [List.cons_append, List.dropWhile_cons, ha, if_true]
        simp only [List.dropWhile_cons, ha, if_true] at h
        exact ih h
      · have ha' : p a = false := by
          cases hpa : p a
          · rfl
          · exact absurd hpa ha
        simp only [List.cons_append, List.dropWhile_cons, ha', Bool.false_eq_true,
          if_false]

theorem dropWhile_cons_of_neg {α : Type} (p : α → Bool) (a : α) (l : List α)
    (h : p a = false) : List.dropWhile p (a :: l) = a :: l := by
  simp only [List.dropWhile_cons, h, Bool.false_eq_true, if_false]

/-- A nonempty list of non-whitespace characters is untouched by `dropWS`. -/
theorem dropWS_all_not (l : List Char) (h : ∀ c ∈ l, pyIsSpace c = false) :
    dropWS l = l := by
  cases l with
  | nil => rfl
  | cons a t => exact dropWhile_cons_of_neg _ a t (h a (List.mem_cons_self a t))

/-- Stripping the trailing whitespace of a list of whitespace characters
gives the empty list, and conversely. -/
theorem stripR_eq_nil_iff (l : List Char) :
    stripR l = [] ↔ ∀ c ∈ l, pyIsSpace c = true := by
  unfold stripR
  rw [List.reverse_eq_nil_iff, List.dropWhile_eq_nil_iff]
  constructor
  · intro h c hc
    exact h c (List.mem_reverse.mpr hc)
  · intro h c hc
    exact h c (List.mem_reverse.mp hc)

theorem takeWhile_all {α : Type} (p : α → Bool) (l : List α)
    (h : ∀ c ∈ l, p c = true) : List.takeWhile p l = l := by
  have := takeWhile_append_all p l [] h
  simpa using this

theorem dropWhile_all {α : Type} (p : α → Bool) (l : List α)
    (h : ∀ c ∈ l, p c = true) : List.dropWhile p l = [] := by
  have := dropWhile_append_all p l [] h
  simpa using this

/-- `dropWS` leaves a list alone when it starts with a nonempty run of
non-whitespace characters. -/
theorem dropWS_append_head (t r : List Char) (htne : t ≠ [])
    (hws : ∀ c ∈ t, pyIsSpace c = false) : dropWS (t ++ r) = t ++ r := by
  cases t with
  | nil => exact absurd rfl htne
  | cons a s =>
      rw [List.cons_append]
      exact dropWhile_cons_of_neg _ a _ (hws a (List.mem_cons_self a s))

/-- Right-stripping a string of the form `token ++ " " ++ x` where the token
has no whitespace: the token and the separating space survive exactly when
`x` is not all whitespace. -/
theorem stripR_token_append (t x : List Char) (htne : t ≠ [])
    (hws : ∀ c ∈ t, pyIsSpace c = false) :
    stripR (t ++ ' ' :: x) =
      t ++ (if stripR x = [] then [] else ' ' :: stripR x) := by
  have hrev : (t ++ ' ' :: x).reverse = (x.reverse ++ [' ']) ++ t.reverse := by
    simp
  by_cases hx : List.dropWhile pyIsSpace x.reverse = []
  · have hxall : ∀ c ∈ x.reverse, pyIsSpace c = true :=
      List.dropWhile_eq_nil_iff.mp hx
    have hsx : stripR x = [] := by
      rw [stripR_eq_nil_iff]
      intro c hc
      exact hxall c (List.mem_reverse.mpr hc)
    rw [hsx, if_pos rfl, List.append_nil]
    show (List.dropWhile pyIsSpace ((t ++ ' ' :: x).reverse)).reverse = t
    rw [hrev, List.append_assoc,
      dropWhile_append_all _ _ _ hxall,
      show ([' '] ++ t.reverse : List Char) = ' ' :: t.reverse from rfl,
      List.dropWhile_cons]
    rw [show pyIsSpace ' ' = true from rfl, if_pos rfl,
      show List.dropWhile pyIsSpace t.reverse = t.reverse from
        dropWS_all_not _ (fun c hc => hws c (List.mem_reverse.mp hc)),
      List.reverse_reverse]
  · have hsx : stripR x ≠ [] := by
      unfold stripR
      simpa [List.reverse_eq_nil_iff] using hx
    rw [if_neg hsx]
    show (List.dropWhile pyIsSpace ((t ++ ' ' :: x).reverse)).reverse =
      t ++ ' ' :: stripR x
    have hinner : List.dropWhile pyIsSpace (x.reverse ++ [' ']) =
        List.dropWhile pyIsSpace x.reverse ++ [' '] :=
      dropWhile_append_of_ne _ _ _ hx
    have houter : List.dropWhile pyIsSpace ((x.reverse ++ [' ']) ++ t.reverse) =
        (List.dropWhile pyIsSpace x.reverse ++ [' ']) ++ t.reverse := by
      rw [dropWhile_append_of_ne _ _ _ (by simp [hinner]), hinner]
    rw [hrev, houter]
    simp [stripR]

/-- `pystripL` on `token ++ " " ++ x`. -/
theorem pystripL_token_append (t x : List Char) (htne : t ≠ [])
    (hws : ∀ c ∈ t, pyIsSpace c = false) :
    pystripL (t ++ ' ' :: x) =
      t ++ (if stripR x = [] then [] else ' ' :: stripR x) := by
  unfold pystripL
  rw [dropWS_append_head t (' ' :: x) htne hws]
  exact stripR_token_append t x htne hws

/-- Splitting a single whitespace-free token yields just that token. -/
theorem pysplit1L_single (t : List Char) (htne : t ≠ [])
    (hws : ∀ c ∈ t, pyIsSpace c = false) : pysplit1L t = [t] := by
  unfold pysplit1L
  rw [dropWS_all_not t hws]
  cases t with
  | nil => exact absurd rfl htne
  | cons a s =>
      simp only
      rw [takeWhile_all _ _ (fun c hc => by simp [hws c hc]),
        dropWhile_all _ _ (fun c hc => by simp [hws c hc])]
      rfl

/-- Splitting `token ++ " " ++ y`: the token is the first element; the
remainder is `y` without its leading whitespace, when anything remains. -/
theorem pysplit1L_token_append (t y : List Char) (htne : t ≠ [])
    (hws : ∀ c ∈ t, pyIsSpace c = false) :
    pysplit1L (t ++ ' ' :: y) =
      if dropWS y = [] then [t] else [t, dropWS y] := by
  unfold pysplit1L
  rw [dropWS_append_head t (' ' :: y) htne hws]
  cases t with
  | nil => exact absurd rfl htne
  | cons a s =>
      rw [List.cons_append]
      simp only
      rw [show a :: (s ++ ' ' :: y) = (a :: s) ++ ' ' :: y from rfl,
        takeWhile_append_all _ _ _ (fun c hc => by simp [hws c hc]),
        dropWhile_append_all _ _ _ (fun c hc => by simp [hws c hc]),
        List.takeWhile_cons]
      rw [show (!pyIsSpace ' ') = false from rfl]
      simp only [Bool.false_eq_true, if_false, List.append_nil]
      rw [dropWhile_cons_of_neg _ ' ' y (show (!pyIsSpace ' ') = false from rfl)]
      rw [show dropWS (' ' :: y) = dropWS y by
        unfold dropWS
        rw [List.dropWhile_cons, show pyIsSpace ' ' = true from rfl, if_pos rfl]]

/-- Composite behaviour of strip, lower and split on `token ++ " " ++ x`
for a whitespace-free lowercase token. -/
theorem pipeline_split (t xd : List Char) (htne : t ≠ [])
    (hws : ∀ c ∈ t, pyIsSpace c = false)
    (hlow : List.map pyLowerChar t = t) :
    pysplit1L (List.map pyLowerChar (pystripL (t ++ ' ' :: xd))) =
      if restOf xd = [] then [t] else [t, restOf xd] := by
  rw [pystripL_token_append t xd htne hws]
  by_cases hsx : stripR xd = []
  · rw [if_pos hsx, List.append_nil, hlow,
      pysplit1L_single t htne hws]
    rw [show restOf xd = [] by rw [restOf, hsx]; rfl, if_pos rfl]
  · rw [if_neg hsx, List.map_append, hlow, List.map_cons,
      show pyLowerChar ' ' = ' ' from rfl,
      pysplit1L_token_append t _ htne hws]
    rfl

/-- Submitting `token ++ " " ++ x` for a whitespace-free lowercase token
whose alias-resolved name has a registered handler, when the text is not
URL-like and not an existing path, dispatches that handler on `argTail x`. -/
theorem submit_command (u : String → Bool) (fs : FSProbe) (t x : String)
    (h : String → List Msg)
    (htne : t.data ≠ [])
    (hws : ∀ c ∈ t.data, pyIsSpace c = false)
    (hlow : List.map pyLowerChar t.data = t.data)
    (hh : getCommandHandler (aliasGet t) = some h)
    (hu : u (pystrip (t ++ " " ++ x)) = false)
    (hex : fs.pathExists (pathOfString (pystrip (t ++ " " ++ x))) = false) :
    on_input_submitted u fs (t ++ " " ++ x) = some ⟨h (argTail x), "", true⟩ := by
  have hdata : (t ++ " " ++ x).data = t.data ++ ' ' :: x.data := by
    show (t.data ++ [' ']) ++ x.data = t.data ++ ' ' :: x.data
    rw [List.append_assoc]
    rfl
  have hsplitL : pysplit1L ((pylower (pystrip (t ++ " " ++ x))).data) =
      if restOf x.data = [] then [t.data] else [t.data, restOf x.data] := by
    show pysplit1L (List.map pyLowerChar (pystripL ((t ++ " " ++ x).data))) = _
    rw [hdata]
    exact pipeline_split t.data x.data htne hws hlow
  have hps : pysplit1 (pylower (pystrip (t ++ " " ++ x))) =
      if restOf x.data = [] then [t] else [t, String.mk (restOf x.data)] := by
    unfold pysplit1
    rw [hsplitL]
    by_cases hr : restOf x.data = []
    · rw [if_pos hr, if_pos hr]
      rfl
    · rw [if_neg hr, if_neg hr]
      rfl
  have hsc : split_command (pylower (pystrip (t ++ " " ++ x))) =
      [t, if restOf x.data = [] then "" else String.mk (restOf x.data)] := by
    unfold split_command
    rw [hps]
    by_cases hr : restOf x.data = []
    · rw [if_pos hr, if_pos hr]
      simp
    · rw [if_neg hr, if_neg hr]
      simp
  have his : is_command (pylower (pystrip (t ++ " " ++ x))) = some true := by
    unfold is_command
    rw [hsc]
    simp [hh]
  have harg :
      pystrip (if restOf x.data = [] then "" else String.mk (restOf x.data)) =
        argTail x := by
    by_cases hr : restOf x.data = []
    · rw [if_pos hr]
      unfold argTail
      rw [hr]
      rfl
    · rw [if_neg hr]
      rfl
  have hexec : execute_command (pylower (pystrip (t ++ " " ++ x))) =
      some (h (argTail x)) := by
    unfold execute_command
    rw [hsc]
    simp [hh, harg]
  simp only [on_input_submitted, hu, hex, his, hexec]
  simp

/-! ### Claim theorems -/

/-- C1: if the URL-likelihood predicate accepts the trimmed submitted
string, the submit handler posts exactly one `RemoteViewCommand` carrying
that URL, clears the input and stops the event, for every filesystem
probe whatsoever: the URL check runs first and wins. -/
theorem C1_url_top_priority (u : String → Bool) (fs : FSProbe) (value : String)
    (h : u (pystrip value) = true) :
    on_input_submitted u fs value =
      some ⟨[Msg.RemoteViewCommand ⟨pystrip value⟩], "", true⟩ := by
  simp only [on_input_submitted, h]
  simp

/-- Witness for C1 at the concrete input of spec scenario A. -/
theorem C1_url_top_priority_witness :
    on_input_submitted (fun _ => true)
        ⟨fun _ => true, fun _ => true, fun _ => true⟩
        "https://example.com/readme.md" =
      some ⟨[Msg.RemoteViewCommand ⟨pystrip "https://example.com/readme.md"⟩],
        "", true⟩ :=
  C1_url_top_priority _ _ _ rfl

/-- C5: command matching is case-insensitive on the leading token:
submitting "Q" and submitting "q" (neither URL-like nor an existing path)
both post exactly one `QuitCommand` and nothing else. -/
theorem C5_quit_case_insensitive (u : String → Bool) (fs : FSProbe)
    (hQ : u "Q" = false) (hq : u "q" = false)
    (hQe : fs.pathExists (pathOfString "Q") = false)
    (hqe : fs.pathExists (pathOfString "q") = false) :
    on_input_submitted u fs "Q" = some ⟨[Msg.QuitCommand], "", true⟩ ∧
    on_input_submitted u fs "q" = some ⟨[Msg.QuitCommand], "", true⟩ := by
  have e1 : pystrip "Q" = "Q" := rfl
  have e2 : pystrip "q" = "q" := rfl
  constructor
  · simp only [on_input_submitted, e1, hQ, hQe, Bool.false_eq_true, if_false]
    decide
  · simp only [on_input_submitted, e2, hq, hqe, Bool.false_eq_true, if_false]
    decide

/-- Witness for C5 with trivial capabilities. -/
theorem C5_quit_case_insensitive_witness :
    on_input_submitted (fun _ => false)
        ⟨fun _ => false, fun _ => false, fun _ => false⟩ "Q" =
      some ⟨[Msg.QuitCommand], "", true⟩ ∧
    on_input_submitted (fun _ => false)
        ⟨fun _ => false, fun _ => false, fun _ => false⟩ "q" =
      some ⟨[Msg.QuitCommand], "", true⟩ :=
  C5_quit_case_insensitive _ _ rfl rfl rfl rfl

/-- C6: a submission that is not URL-like, names no existing path, and
whose alias-resolved leading token has no registered handler yields the
unresolved-filename fallback: exactly one `LocalViewCommand` carrying the
(trimmed) submitted text as its path, with the submitted text restored
into the input, and the event stopped. -/
theorem C6_unresolved_fallback (u : String → Bool) (fs : FSProbe)
    (value : String)
    (hu : u (pystrip value) = false)
    (hex : fs.pathExists (pathOfString (pystrip value)) = false)
    (hcmd : is_command (pylower (pystrip value)) = some false) :
    on_input_submitted u fs value =
      some ⟨[Msg.LocalViewCommand (pathOfString (pystrip value))],
        pystrip value, true⟩ := by
  simp only [on_input_submitted, hu, hex, hcmd]
  simp

/-- Witness for C6 at spec scenario E's input. -/
theorem C6_unresolved_fallback_witness :
    on_input_submitted (fun _ => false)
        ⟨fun _ => false, fun _ => false, fun _ => false⟩ "not-a-real-file.md" =
      some ⟨[Msg.LocalViewCommand (pathOfString (pystrip "not-a-real-file.md"))],
        pystrip "not-a-real-file.md", true⟩ :=
  C6_unresolved_fallback _ _ _ rfl rfl (by decide)

/-- `pysplit1L` returns at most two pieces. -/
theorem pysplit1L_shape (l : List Char) :
    pysplit1L l = [] ∨ (∃ a, pysplit1L l = [a]) ∨
      ∃ a b, pysplit1L l = [a, b] := by
  unfold pysplit1L
  cases hd : dropWS l with
  | nil => exact Or.inl rfl
  | cons c cs =>
      simp only
      by_cases hr :
          dropWS ((c :: cs).dropWhile (fun d => !pyIsSpace d)) = []
      · rw [if_pos hr]
        exact Or.inr (Or.inl ⟨_, rfl⟩)
      · rw [if_neg hr]
        exact Or.inr (Or.inr ⟨_, _, rfl⟩)

/-- Every `_split_command` result is empty or has exactly two entries. -/
theorem split_command_shape (v : String) :
    split_command v = [] ∨ ∃ a b, split_command v = [a, b] := by
  rcases pysplit1L_shape v.data with h | ⟨a, h⟩ | ⟨a, b, h⟩
  · left
    unfold split_command pysplit1
    rw [h]
    rfl
  · right
    refine ⟨String.mk a, "", ?_⟩
    unfold split_command pysplit1
    rw [h]
    rfl
  · right
    refine ⟨String.mk a, String.mk b, ?_⟩
    unfold split_command pysplit1
    rw [h]
    rfl

/-- C8: whenever `_is_command` has answered `true` for a string,
`_execute_command` on that same string cannot fail: the handler lookup
for the alias-resolved leading token succeeds and a dispatch result is
produced (the missing-handler branch is unreachable). -/
theorem C8_dispatch_never_fails (v : String) (h : is_command v = some true) :
    ∃ msgs, execute_command v = some msgs := by
  rcases split_command_shape v with hs | ⟨a, b, hs⟩
  · unfold is_command at h
    rw [hs] at h
    simp at h
  · unfold is_command at h
    rw [hs] at h
    simp only [Option.some.injEq] at h
    obtain ⟨hdl, hh⟩ := Option.isSome_iff_exists.mp h
    unfold execute_command
    rw [hs]
    simp only [hh]
    exact ⟨hdl (pystrip b), rfl⟩

/-- Witness for C8 at the quit alias. -/
theorem C8_dispatch_never_fails_witness :
    ∃ msgs, execute_command "q" = some msgs :=
  C8_dispatch_never_fails "q" (by decide)

/-- C9: the submit handler is deterministic: two runs on the same
submitted string with pointwise-identical URL predicates and filesystem
probes produce identical outcomes (same messages, same final input value,
same event-stopped status, or the same failure). -/
theorem C9_deterministic (u₁ u₂ : String → Bool) (fs₁ fs₂ : FSProbe)
    (value : String)
    (hu : ∀ s, u₁ s = u₂ s)
    (he : ∀ p, fs₁.pathExists p = fs₂.pathExists p)
    (hf : ∀ p, fs₁.isFile p = fs₂.isFile p)
    (hd : ∀ p, fs₁.isDir p = fs₂.isDir p) :
    on_input_submitted u₁ fs₁ value = on_input_submitted u₂ fs₂ value := by
  obtain ⟨e₁, f₁, d₁⟩ := fs₁
  obtain ⟨e₂, f₂, d₂⟩ := fs₂
  have h1 : u₁ = u₂ := funext hu
  have h2 : e₁ = e₂ := funext he
  have h3 : f₁ = f₂ := funext hf
  have h4 : d₁ = d₂ := funext hd
  rw [h1, h2, h3, h4]

/-- Witness for C9: two runs with (pointwise equal) capabilities. -/
theorem C9_deterministic_witness :
    on_input_submitted (fun _ => false)
        ⟨fun _ => false, fun _ => false, fun _ => false⟩ "cd /tmp" =
      on_input_submitted (fun s => s == s ∧ false)
        ⟨fun _ => false, fun _ => false, fun _ => false⟩ "cd /tmp" :=
  C9_deterministic _ _ _ _ _ (fun s => by simp) (fun _ => rfl) (fun _ => rfl)
    (fun _ => rfl)

/-- C10: a submission that trims to the empty string probes the path
built from "", which `pathlib` normalises to the current directory ".";
when that directory exists (and "" is not URL-like) the submission is
classified as a local directory and posts one `LocalChdirCommand` for it,
rather than falling through to the unresolved-filename branch. -/
theorem C10_empty_submission (u : String → Bool) (fs : FSProbe)
    (value : String)
    (hempty : pystrip value = "")
    (hu : u "" = false)
    (hex : fs.pathExists (pathOfString "") = true)
    (hfile : fs.isFile (pathOfString "") = false)
    (hdir : fs.isDir (pathOfString "") = true) :
    on_input_submitted u fs value =
      some ⟨[Msg.LocalChdirCommand (pathOfString "")], "", true⟩ ∧
    pathOfString "" = pathOfString "." ∧ (pathOfString "").toStr = "." := by
  refine ⟨?_, by decide, by decide⟩
  simp only [on_input_submitted, hempty, hu, hex, hfile, hdir]
  simp

/-- Witness for C10: a whitespace-only submission with a probe that
reports the current directory as an existing directory. -/
theorem C10_empty_submission_witness :
    on_input_submitted (fun _ => false)
        ⟨fun p => decide (p = pathOfString ""), fun _ => false,
          fun p => decide (p = pathOfString "")⟩ "   " =
      some ⟨[Msg.LocalChdirCommand (pathOfString "")], "", true⟩ ∧
    pathOfString "" = pathOfString "." ∧ (pathOfString "").toStr = "." :=
  C10_empty_submission _ _ _ (by decide) rfl (by decide) rfl (by decide)

/-- C2: evaluation of the code at the failing input "CD /Tmp" (not
URL-like, no matching path): the whole submitted string is lowercased
before dispatch, so the chdir handler receives "/tmp", a path different
from the typed "/Tmp"; the claimed case preservation of the argument tail
does not hold. -/
theorem C2_argument_tail_lowercased :
    on_input_submitted (fun _ => false)
        ⟨fun _ => false, fun _ => false, fun _ => false⟩ "CD /Tmp" =
      some ⟨[Msg.LocalChdirCommand (pathOfString "/tmp")], "", true⟩ ∧
    pathOfString "/tmp" ≠ pathOfString "/Tmp" ∧
    execute_command (pylower (pystrip "CD /Tmp")) =
      some (command_chdir "/tmp") := by
  refine ⟨by decide, by decide, by decide⟩

/-- C3 counterexample: for input "./README.md" naming an existing regular
file, the displayed value afterwards is the resolved path string
"README.md" (pathlib drops the "." component), not the typed
"./README.md" the claim requires. -/
theorem C3_displayed_value_counterexample :
    on_input_submitted (fun _ => false)
        ⟨fun p => decide (p = pathOfString "./README.md"),
          fun p => decide (p = pathOfString "./README.md"), fun _ => false⟩
        "./README.md" =
      some ⟨[Msg.LocalViewCommand (pathOfString "./README.md")],
        "README.md", true⟩ ∧
    "README.md" ≠ "./README.md" := by
  refine ⟨by decide, by decide⟩

/-- C3 (amended): when the trimmed submission is not URL-like and the
probe reports an existing regular file, exactly one `LocalViewCommand`
for that path is posted and the displayed value is set to the resolved
path string `str(Path(submitted))` — which for "./README.md" is
"README.md", not the typed text. -/
theorem C3_local_file_display (u : String → Bool) (fs : FSProbe)
    (value : String)
    (hu : u (pystrip value) = false)
    (hex : fs.pathExists (pathOfString (pystrip value)) = true)
    (hfile : fs.isFile (pathOfString (pystrip value)) = true) :
    on_input_submitted u fs value =
      some ⟨[Msg.LocalViewCommand (pathOfString (pystrip value))],
        (pathOfString (pystrip value)).toStr, true⟩ := by
  simp only [on_input_submitted, hu, hex, hfile]
  simp

/-- Witness for the amended C3 at the scenario input "./README.md". -/
theorem C3_local_file_display_witness :
    on_input_submitted (fun _ => false)
        ⟨fun p => decide (p = pathOfString "./README.md"),
          fun p => decide (p = pathOfString "./README.md"), fun _ => false⟩
        "./README.md" =
      some ⟨[Msg.LocalViewCommand (pathOfString (pystrip "./README.md"))],
        (pathOfString (pystrip "./README.md")).toStr, true⟩ :=
  C3_local_file_display _ _ _ rfl (by decide) (by decide)

/-- C4: for every alias table entry and every argument string `x`,
submitting `alias ++ " " ++ x` (not URL-like, not an existing path)
produces exactly the same outcome — same handler, same argument, same
posted messages — as submitting `canonical ++ " " ++ x` under the same
conditions. -/
theorem C4_alias_equivalence (u : String → Bool) (fs : FSProbe)
    (al ca x : String)
    (hmem : (al, ca) ∈ ALIASES)
    (hu1 : u (pystrip (al ++ " " ++ x)) = false)
    (hu2 : u (pystrip (ca ++ " " ++ x)) = false)
    (he1 : fs.pathExists (pathOfString (pystrip (al ++ " " ++ x))) = false)
    (he2 : fs.pathExists (pathOfString (pystrip (ca ++ " " ++ x))) = false) :
    on_input_submitted u fs (al ++ " " ++ x) =
      on_input_submitted u fs (ca ++ " " ++ x) := by
  simp only [ALIASES, List.mem_cons, List.not_mem_nil, or_false,
    Prod.mk.injEq] at hmem
  rcases hmem with ⟨rfl, rfl⟩ | ⟨rfl, rfl⟩ | ⟨rfl, rfl⟩ | ⟨rfl, rfl⟩ |
    ⟨rfl, rfl⟩ | ⟨rfl, rfl⟩ | ⟨rfl, rfl⟩
  · rw [submit_command u fs "a" x command_about (by decide) (by decide)
      (by decide) rfl hu1 he1,
      submit_command u fs "about" x command_about (by decide) (by decide)
      (by decide) rfl hu2 he2]
  · rw [submit_command u fs "c" x command_contents (by decide) (by decide)
      (by decide) rfl hu1 he1,
      submit_command u fs "contents" x command_contents (by decide) (by decide)
      (by decide) rfl hu2 he2]
  · rw [submit_command u fs "cd" x command_chdir (by decide) (by decide)
      (by decide) rfl hu1 he1,
      submit_command u fs "chdir" x command_chdir (by decide) (by decide)
      (by decide) rfl hu2 he2]
  · rw [submit_command u fs "h" x command_history (by decide) (by decide)
      (by decide) rfl hu1 he1,
      submit_command u fs "history" x command_history (by decide) (by decide)
      (by decide) rfl hu2 he2]
  · rw [submit_command u fs "l" x command_local (by decide) (by decide)
      (by decide) rfl hu1 he1,
      submit_command u fs "local" x command_local (by decide) (by decide)
      (by decide) rfl hu2 he2]
  · rw [submit_command u fs "toc" x command_contents (by decide) (by decide)
      (by decide) rfl hu1 he1,
      submit_command u fs "contents" x command_contents (by decide) (by decide)
      (by decide) rfl hu2 he2]
  · rw [submit_command u fs "q" x command_quit (by decide) (by decide)
      (by decide) rfl hu1 he1,
      submit_command u fs "quit" x command_quit (by decide) (by decide)
      (by decide) rfl hu2 he2]

/-- Witness for C4 at the chdir alias with argument "docs". -/
theorem C4_alias_equivalence_witness :
    on_input_submitted (fun _ => false)
        ⟨fun _ => false, fun _ => false, fun _ => false⟩ ("cd" ++ " " ++ "docs") =
      on_input_submitted (fun _ => false)
        ⟨fun _ => false, fun _ => false, fun _ => false⟩
        ("chdir" ++ " " ++ "docs") :=
  C4_alias_equivalence _ _ _ _ _ (by decide) rfl rfl rfl rfl

/-- C7: the submit handler leaves the event un-stopped exactly when the
trimmed submission is not URL-like and the probe reports it as existing
but neither a regular file nor a directory; in that one case it posts no
message and leaves the input cleared, and in every other classification
outcome the event is stopped. -/
theorem C7_unrepresentable_propagation (u : String → Bool) (fs : FSProbe)
    (value : String) (r : SubmitOutcome)
    (hr : on_input_submitted u fs value = some r) :
    (r.eventStopped = false ↔
      (u (pystrip value) = false ∧
        fs.pathExists (pathOfString (pystrip value)) = true ∧
        fs.isFile (pathOfString (pystrip value)) = false ∧
        fs.isDir (pathOfString (pystrip value)) = false)) ∧
    ((u (pystrip value) = false ∧
        fs.pathExists (pathOfString (pystrip value)) = true ∧
        fs.isFile (pathOfString (pystrip value)) = false ∧
        fs.isDir (pathOfString (pystrip value)) = false) →
      r = ⟨[], "", false⟩) := by
  simp only [on_input_submitted] at hr
  split at hr
  next hu =>
    rw [Option.some.injEq] at hr
    subst hr
    simp [hu]
  next hu =>
    split at hr
    next hex =>
      split at hr
      next hfile =>
        rw [Option.some.injEq] at hr
        subst hr
        simp [hu, hex, hfile]
      next hfile =>
        split at hr
        next hdir =>
          rw [Option.some.injEq] at hr
          subst hr
          simp [hu, hex, hfile, hdir]
        next hdir =>
          rw [Option.some.injEq] at hr
          subst hr
          simp [hu, hex, hfile, hdir]
    next hex =>
      split at hr
      next => simp at hr
      next =>
        split at hr
        next => simp at hr
        next msgs heq2 =>
          rw [Option.some.injEq] at hr
          subst hr
          simp [hu, hex]
      next =>
        rw [Option.some.injEq] at hr
        subst hr
        simp [hu, hex]

/-- Witness for C7 at a probe that reports an existing entry that is
neither file nor directory. -/
theorem C7_unrepresentable_propagation_witness :
    ((⟨[], "", false⟩ : SubmitOutcome).eventStopped = false ↔
      ((fun (_ : String) => false) (pystrip "weird") = false ∧
        (FSProbe.mk (fun _ => true) (fun _ => false) (fun _ => false)).pathExists
          (pathOfString (pystrip "weird")) = true ∧
        (FSProbe.mk (fun _ => true) (fun _ => false) (fun _ => false)).isFile
          (pathOfString (pystrip "weird")) = false ∧
        (FSProbe.mk (fun _ => true) (fun _ => false) (fun _ => false)).isDir
          (pathOfString (pystrip "weird")) = false)) ∧
    (((fun (_ : String) => false) (pystrip "weird") = false ∧
        (FSProbe.mk (fun _ => true) (fun _ => false) (fun _ => false)).pathExists
          (pathOfString (pystrip "weird")) = true ∧
        (FSProbe.mk (fun _ => true) (fun _ => false) (fun _ => false)).isFile
          (pathOfString (pystrip "weird")) = false ∧
        (FSProbe.mk (fun _ => true) (fun _ => false) (fun _ => false)).isDir
          (pathOfString (pystrip "weird")) = false) →
      (⟨[], "", false⟩ : SubmitOutcome) = ⟨[], "", false⟩) :=
  C7_unrepresentable_propagation (fun _ => false)
    ⟨fun _ => true, fun _ => false, fun _ => false⟩ "weird" ⟨[], "", false⟩
    (by decide)
